import Mathlib

/-!
Verification of the VectorTileGenerator repository: a shallow embedding of
the two `GenerateTiles` engines (`TileGenerator/generator.py`, sequential,
and `VectorTileGenerator/generator.py`, parallel) together with proofs of
the specification's claims about them.

Modelling conventions:
* Python integers are `ℤ` (zoom levels produced by the enumerator are `ℕ`,
  since validated configurations force `z ≥ 1`).
* The numeric bounds list handed to the constructor is `List ℚ` (exact
  arithmetic for the comparisons the code performs on it).
* Floating-point projection arithmetic is modelled by exact real
  arithmetic over `ℝ`.
* A Python function that can raise is an `Except String` computation; the
  raised `ValueError` message is the string payload.
* The external polygon-intersection primitive (`turfpy.intersect`), out of
  scope per the spec, is an abstract boolean parameter over the closed
  polygon rings the code builds.
* In the parallel engine, `validate_tile` returns the tile itself or the
  empty list `[]`; this two-valued result is modelled as `Option Tile`
  (`some t` for the tile, `none` for `[]`), and the compaction
  `filter (len > 0)` becomes `List.filterMap id`.
* `joblib.Parallel` returns results positionally, in dispatch order,
  independent of worker completion order; its observable semantics is
  therefore an ordered effectful map over the candidate list.
-/

/-- A tile index as produced by the enumerator: `(z, x, y)`. -/
abbrev Tile := ℕ × ℤ × ℤ

/-- The abstract external polygon-intersection primitive: takes two closed
rings of `[lng, lat]` points and answers whether the polygons intersect. -/
abbrev Intersect := List (ℝ × ℝ) → List (ℝ × ℝ) → Bool

/-- The default bounds `[-180, -90, 180, 90]`, the full world extent. -/
def worldBounds : List ℚ := [-180, -90, 180, 90]

/-- The configuration held by a successfully constructed `GenerateTiles`
instance: `minZoom`, `maxZoom`, `bounds`. -/
structure Config where
  minZoom : ℤ
  maxZoom : ℤ
  bounds : List ℚ

/-- `True` on `Except.ok`, `false` on `Except.error`: whether a modelled
Python call returned normally rather than raising. -/
def okB {ε : Type} {α : Type} : Except ε α → Bool
  | Except.ok _ => true
  | Except.error _ => false

/-- `GenerateTiles.__init__`: the validation chain run at construction.
Each failing check raises `ValueError` with the message given in the
source; passing all checks yields the stored configuration.  List indexing
`bounds[i]` is modelled with `List.getD` (the indices are only reached
once the length check has passed). -/
def init (minZoom maxZoom : ℤ) (bounds : List ℚ) : Except String Config :=
  if minZoom > 20 then Except.error "minZoom must be less than or equal to 20"
  else if minZoom < 1 then Except.error "minZoom must be greater than or equal to 1"
  else if maxZoom < 1 then Except.error "maxZoom must be greater than or equal to 1"
  else if maxZoom > 20 then Except.error "maxZoom must be greater than or equal to 20"
  else if minZoom > maxZoom then Except.error "minZoom must be less than or equal to maxZoom"
  else if maxZoom < minZoom then Except.error "maxZoom must be greater than or equal to minZoom"
  else if bounds.length ≠ 4 then Except.error "Incorrect length for bounds. Ex.[-180, -90, 180, 90]"
  else if bounds.getD 0 0 < -180 then Except.error "Minimum x bounds must be greater than or equal to -180"
  else if bounds.getD 1 0 < -90 then Except.error "Minimum y bounds must be greater than or equal to -90"
  else if bounds.getD 2 0 > 180 then Except.error "Maximum x bounds must be less than or equal to 180"
  else if bounds.getD 3 0 > 90 then Except.error "Maximum y bounds must be less than or equal to 90"
  else if bounds.getD 0 0 > bounds.getD 2 0 then Except.error "Minimum x bounds must be less than maximum x bounds"
  else if bounds.getD 1 0 > bounds.getD 3 0 then Except.error "Minimum y bounds must be less than maximum y bounds"
  else Except.ok ⟨minZoom, maxZoom, bounds⟩

/-- The specification's construction-validation rules, checked in the
spec's stated order (zoom ranges, zoom ordering, bounds length, bounds
world-extent, bounds ordering); the first violated rule is reported.  The
redundant `maxZoom < minZoom` re-check of the source does not appear: the
spec states the zoom-ordering rule once. -/
def initSpec (minZoom maxZoom : ℤ) (bounds : List ℚ) : Except String Config :=
  if minZoom > 20 then Except.error "minZoom must be less than or equal to 20"
  else if minZoom < 1 then Except.error "minZoom must be greater than or equal to 1"
  else if maxZoom < 1 then Except.error "maxZoom must be greater than or equal to 1"
  else if maxZoom > 20 then Except.error "maxZoom must be greater than or equal to 20"
  else if minZoom > maxZoom then Except.error "minZoom must be less than or equal to maxZoom"
  else if bounds.length ≠ 4 then Except.error "Incorrect length for bounds. Ex.[-180, -90, 180, 90]"
  else if bounds.getD 0 0 < -180 then Except.error "Minimum x bounds must be greater than or equal to -180"
  else if bounds.getD 1 0 < -90 then Except.error "Minimum y bounds must be greater than or equal to -90"
  else if bounds.getD 2 0 > 180 then Except.error "Maximum x bounds must be less than or equal to 180"
  else if bounds.getD 3 0 > 90 then Except.error "Maximum y bounds must be less than or equal to 90"
  else if bounds.getD 0 0 > bounds.getD 2 0 then Except.error "Minimum x bounds must be less than maximum x bounds"
  else if bounds.getD 1 0 > bounds.getD 3 0 then Except.error "Minimum y bounds must be less than maximum y bounds"
  else Except.ok ⟨minZoom, maxZoom, bounds⟩

/-- No construction-validation rule is violated: every conjunct is one of
the ten rules of the spec (zoom ranges and ordering, bounds length,
world-extent bounds, ordered bounds). -/
def validParams (minZoom maxZoom : ℤ) (bounds : List ℚ) : Prop :=
  1 ≤ minZoom ∧ minZoom ≤ 20 ∧ 1 ≤ maxZoom ∧ maxZoom ≤ 20 ∧ minZoom ≤ maxZoom ∧
    bounds.length = 4 ∧
    -180 ≤ bounds.getD 0 0 ∧ -90 ≤ bounds.getD 1 0 ∧
    bounds.getD 2 0 ≤ 180 ∧ bounds.getD 3 0 ≤ 90 ∧
    bounds.getD 0 0 ≤ bounds.getD 2 0 ∧ bounds.getD 1 0 ≤ bounds.getD 3 0

instance (minZoom maxZoom : ℤ) (bounds : List ℚ) :
    Decidable (validParams minZoom maxZoom bounds) := by
  unfold validParams; infer_instance

/-- `GenerateTiles.pixels_to_meters`: convert pixel coordinates at zoom
`z` to spherical Web Mercator meters.  `res` is the meters-per-pixel
resolution; the final `my = -my` flips the y axis. -/
noncomputable def pixels_to_meters (z : ℕ) (x y : ℝ) : ℝ × ℝ :=
  let res : ℝ := (2 * Real.pi * 6378137 / 256) / (2 ^ z)
  let mx : ℝ := x * res - (2 * Real.pi * 6378137 / 2)
  let my : ℝ := y * res - (2 * Real.pi * 6378137 / 2)
  (mx, -my)

/-- `GenerateTiles.tile_is_valid`: both indices lie in `[0, 2^z)`. -/
def tile_is_valid (z : ℕ) (x y : ℤ) : Bool :=
  if x ≥ (2 : ℤ) ^ z then false
  else if y ≥ (2 : ℤ) ^ z then false
  else if x < 0 ∨ y < 0 then false
  else true

/-- `GenerateTiles.tile_bounds`: the projected-meter corners of a tile,
min corner from pixel `(x*256, (y+1)*256)`, max corner from pixel
`((x+1)*256, y*256)`; raises `ValueError "Invalid tile"` on an invalid
index. -/
noncomputable def tile_bounds (z : ℕ) (x y : ℤ) :
    Except String ((ℝ × ℝ) × (ℝ × ℝ)) :=
  if tile_is_valid z x y then
    Except.ok
      (pixels_to_meters z ((x : ℝ) * 256) (((y : ℝ) + 1) * 256),
       pixels_to_meters z (((x : ℝ) + 1) * 256) ((y : ℝ) * 256))
  else Except.error "Invalid tile"

/-- `GenerateTiles.meters_to_lat_lng`: inverse spherical Web Mercator
projection from meters to `(lng, lat)` degrees. -/
noncomputable def meters_to_lat_lng (coord : ℝ × ℝ) : ℝ × ℝ :=
  let lng : ℝ := (coord.1 / (2 * Real.pi * 6378137 / 2)) * 180
  let lat0 : ℝ := (coord.2 / (2 * Real.pi * 6378137 / 2)) * 180
  let lat : ℝ := 180 / Real.pi *
    (2 * Real.arctan (Real.exp (lat0 * Real.pi / 180)) - Real.pi / 2)
  (lng, lat)

/-- `GenerateTiles.bounds_from_tile`: the geographic bounding box
`[minLng, minLat, maxLng, maxLat]` of a tile; propagates the
`"Invalid tile"` error of `tile_bounds`. -/
noncomputable def bounds_from_tile (z : ℕ) (x y : ℤ) :
    Except String (ℝ × ℝ × ℝ × ℝ) :=
  match tile_bounds z x y with
  | Except.error e => Except.error e
  | Except.ok b =>
    let mins := meters_to_lat_lng b.1
    let maxs := meters_to_lat_lng b.2
    Except.ok (mins.1, mins.2, maxs.1, maxs.2)

/-- `GenerateTiles.zoom_generator`: all `[z, x, y]` candidates at zoom
`z`, x-major (outer loop over x, inner loop over y, both ascending). -/
def zoom_generator (z : ℕ) : List Tile :=
  (List.range (2 ^ z)).flatMap fun x =>
    (List.range (2 ^ z)).map fun y : ℕ => (z, (x : ℤ), (y : ℤ))

/-- The closed five-point rectangular ring the code builds from a
four-component bounding box: `(minX,minY), (maxX,minY), (maxX,maxY),
(minX,maxY), (minX,minY)`. -/
def ringOf (b0 b1 b2 b3 : ℝ) : List (ℝ × ℝ) :=
  [(b0, b1), (b2, b1), (b2, b3), (b0, b3), (b0, b1)]

/-- `GenerateTiles.tile_bounds_within_overall_bounds`: build the tile ring
and the overall-bounds ring and delegate to the external intersection
primitive. -/
def tile_bounds_within_overall_bounds (intersect : Intersect)
    (tb : ℝ × ℝ × ℝ × ℝ) (overlapBounds : List ℚ) : Bool :=
  intersect (ringOf tb.1 tb.2.1 tb.2.2.1 tb.2.2.2)
    (ringOf ((overlapBounds.getD 0 0 : ℚ) : ℝ) ((overlapBounds.getD 1 0 : ℚ) : ℝ)
      ((overlapBounds.getD 2 0 : ℚ) : ℝ) ((overlapBounds.getD 3 0 : ℚ) : ℝ))

/-- The zoom levels visited by `generate`: Python `range(minZoom,
maxZoom+1)`.  Validated configurations have `1 ≤ minZoom`, where this
agrees with the Python range. -/
def zoomList (minZoom maxZoom : ℤ) : List ℕ :=
  List.range' minZoom.toNat (maxZoom + 1 - minZoom).toNat

/-- Shared shape of both `generate` loops: visit each zoom level, run the
per-zoom computation, and record `(z, tiles)` pairs in iteration order
(the insertion-ordered result dictionary). -/
def buildLevels (f : ℕ → Except String (List Tile)) :
    List ℕ → Except String (List (ℕ × List Tile))
  | [] => Except.ok []
  | z :: zs =>
    match f z with
    | Except.error e => Except.error e
    | Except.ok v =>
      match buildLevels f zs with
      | Except.error e => Except.error e
      | Except.ok rest => Except.ok ((z, v) :: rest)

/-- The sequential filter loop of `TileGenerator.GenerateTiles.generate`:
for each tile compute `bounds_from_tile` and keep the tile when
`tile_bounds_within_overall_bounds` holds; an exception aborts the loop. -/
noncomputable def seqFilter (intersect : Intersect) (bounds : List ℚ) :
    List Tile → Except String (List Tile)
  | [] => Except.ok []
  | t :: ts =>
    match bounds_from_tile t.1 t.2.1 t.2.2 with
    | Except.error e => Except.error e
    | Except.ok tb =>
      match seqFilter intersect bounds ts with
      | Except.error e => Except.error e
      | Except.ok rest =>
        Except.ok
          (if tile_bounds_within_overall_bounds intersect tb bounds
           then t :: rest else rest)

/-- Ordered effectful map over a list in the `Except` monad: the
observable semantics of `joblib.Parallel` applied to a list of delayed
pure calls (results are collected positionally, in dispatch order). -/
def mapExcept {α β : Type} (f : α → Except String β) :
    List α → Except String (List β)
  | [] => Except.ok []
  | a :: as =>
    match f a with
    | Except.error e => Except.error e
    | Except.ok b =>
      match mapExcept f as with
      | Except.error e => Except.error e
      | Except.ok rest => Except.ok (b :: rest)

namespace TileGenerator

/-- `TileGenerator.GenerateTiles.generate`: the sequential engine.  For
each zoom level, all candidates are kept when the bounds equal the world
extent; otherwise the sequential filter loop runs. -/
noncomputable def generate (intersect : Intersect) (minZoom maxZoom : ℤ)
    (bounds : List ℚ) : Except String (List (ℕ × List Tile)) :=
  buildLevels
    (fun z =>
      if bounds ≠ worldBounds then seqFilter intersect bounds (zoom_generator z)
      else Except.ok (zoom_generator z))
    (zoomList minZoom maxZoom)

end TileGenerator

namespace VectorTileGenerator

/-- `VectorTileGenerator.GenerateTiles.validate_tile`: the per-tile worker
of the parallel engine; returns the tile itself (`some t`) when its
geographic bounds intersect the configured bounds, otherwise the empty
list (`none`). -/
noncomputable def validate_tile (intersect : Intersect) (bounds : List ℚ)
    (t : Tile) : Except String (Option Tile) :=
  match bounds_from_tile t.1 t.2.1 t.2.2 with
  | Except.error e => Except.error e
  | Except.ok tb =>
    if tile_bounds_within_overall_bounds intersect tb bounds
    then Except.ok (some t) else Except.ok none

/-- `VectorTileGenerator.GenerateTiles.generate`: the parallel engine.
The worker pool maps `validate_tile` over the candidates positionally;
the compaction keeps the non-empty results in positional order. -/
noncomputable def generate (intersect : Intersect) (minZoom maxZoom : ℤ)
    (bounds : List ℚ) : Except String (List (ℕ × List Tile)) :=
  buildLevels
    (fun z =>
      if bounds ≠ worldBounds then
        match mapExcept (validate_tile intersect bounds) (zoom_generator z) with
        | Except.error e => Except.error e
        | Except.ok rs => Except.ok (rs.filterMap id)
      else Except.ok (zoom_generator z))
    (zoomList minZoom maxZoom)

end VectorTileGenerator

/-- The tile's geographic bounding box as a total function on valid
indices: what `bounds_from_tile` returns when it does not raise. -/
noncomputable def geoBounds (z : ℕ) (x y : ℤ) : ℝ × ℝ × ℝ × ℝ :=
  let mins := meters_to_lat_lng (pixels_to_meters z ((x : ℝ) * 256) (((y : ℝ) + 1) * 256))
  let maxs := meters_to_lat_lng (pixels_to_meters z (((x : ℝ) + 1) * 256) ((y : ℝ) * 256))
  (mins.1, mins.2, maxs.1, maxs.2)

/-- The per-tile containment test as a total boolean function on valid
indices: the tile's geographic box intersects the configured bounds. -/
noncomputable def tileTest (intersect : Intersect) (bounds : List ℚ)
    (t : Tile) : Bool :=
  tile_bounds_within_overall_bounds intersect (geoBounds t.1 t.2.1 t.2.2) bounds

/-- Two closed axis-aligned boxes, the first given as a `(minLng, minLat,
maxLng, maxLat)` tuple and the second as a four-component list, share at
least one point (boundary contact included). -/
def rectOverlap (tb : ℝ × ℝ × ℝ × ℝ) (ob : List ℚ) : Prop :=
  tb.1 ≤ ((ob.getD 2 0 : ℚ) : ℝ) ∧ ((ob.getD 0 0 : ℚ) : ℝ) ≤ tb.2.2.1 ∧
    tb.2.1 ≤ ((ob.getD 3 0 : ℚ) : ℝ) ∧ ((ob.getD 1 0 : ℚ) : ℝ) ≤ tb.2.2.2

/-- Strict x-major lexicographic order on tile indices at a fixed zoom:
earlier means smaller x, or equal x and smaller y. -/
def tileLex (a b : Tile) : Prop :=
  a.2.1 < b.2.1 ∨ (a.2.1 = b.2.1 ∧ a.2.2 < b.2.2)

lemma two_pow_cast (z : ℕ) : ((2 ^ z : ℕ) : ℤ) = (2 : ℤ) ^ z := by
  push_cast
  ring

lemma tile_is_valid_iff (z : ℕ) (x y : ℤ) :
    tile_is_valid z x y = true ↔
      0 ≤ x ∧ x < 2 ^ z ∧ 0 ≤ y ∧ y < 2 ^ z := by
  unfold tile_is_valid
  rw [← two_pow_cast]
  generalize (2 ^ z : ℕ) = n
  split_ifs with h1 h2 h3 <;> simp_all <;> omega

lemma zoom_generator_mem (z : ℕ) (t : Tile) :
    t ∈ zoom_generator z ↔
      t.1 = z ∧ 0 ≤ t.2.1 ∧ t.2.1 < 2 ^ z ∧ 0 ≤ t.2.2 ∧ t.2.2 < 2 ^ z := by
  obtain ⟨z0, x0, y0⟩ := t
  dsimp only
  unfold zoom_generator
  rw [← two_pow_cast]
  generalize (2 ^ z : ℕ) = n
  rw [List.mem_flatMap]
  constructor
  · rintro ⟨x, hx, hin⟩
    obtain ⟨y, hy, he⟩ := List.mem_map.mp hin
    rw [List.mem_range] at hx hy
    simp only [Prod.mk.injEq] at he
    obtain ⟨h1, h2, h3⟩ := he
    refine ⟨h1.symm, ?_, ?_, ?_, ?_⟩ <;> omega
  · rintro ⟨rfl, h2, h3, h4, h5⟩
    refine ⟨x0.toNat, List.mem_range.mpr (by omega), ?_⟩
    refine List.mem_map.mpr ⟨y0.toNat, List.mem_range.mpr (by omega), ?_⟩
    have hx : ((x0.toNat : ℤ)) = x0 := by omega
    have hy : ((y0.toNat : ℤ)) = y0 := by omega
    rw [hx, hy]

lemma zoom_generator_length (z : ℕ) : (zoom_generator z).length = 4 ^ z := by
  unfold zoom_generator
  rw [List.length_flatMap]
  have h : List.map (List.length ∘ fun x : ℕ =>
      (List.range (2 ^ z)).map fun y : ℕ => ((z, (x : ℤ), (y : ℤ)) : Tile))
      (List.range (2 ^ z)) = List.replicate (2 ^ z) (2 ^ z) := by
    rw [List.eq_replicate_iff]
    refine ⟨by simp [List.length_map, List.length_range], ?_⟩
    intro b hb
    obtain ⟨x, hx, hbx⟩ := List.mem_map.mp hb
    rw [← hbx]
    simp [Function.comp, List.length_map, List.length_range]
  rw [h, List.sum_replicate, smul_eq_mul, ← mul_pow]
  norm_num

lemma zoom_generator_valid (z : ℕ) :
    ∀ t ∈ zoom_generator z, tile_is_valid t.1 t.2.1 t.2.2 = true := by
  intro t ht
  obtain ⟨h1, h2, h3, h4, h5⟩ := (zoom_generator_mem z t).mp ht
  rw [h1] at *
  exact (tile_is_valid_iff z t.2.1 t.2.2).mpr ⟨h2, h3, h4, h5⟩

lemma zoom_generator_pairwise (z : ℕ) :
    List.Pairwise tileLex (zoom_generator z) := by
  unfold zoom_generator
  rw [List.pairwise_flatMap]
  constructor
  · intro x hx
    rw [List.pairwise_map]
    refine (List.pairwise_lt_range (2 ^ z)).imp ?_
    intro a b hab
    exact Or.inr ⟨rfl, show ((a : ℤ)) < ((b : ℤ)) by exact_mod_cast hab⟩
  · refine (List.pairwise_lt_range (2 ^ z)).imp ?_
    intro a b hab s hs r hr
    obtain ⟨ya, hya, hsa⟩ := List.mem_map.mp hs
    obtain ⟨yb, hyb, hrb⟩ := List.mem_map.mp hr
    rw [← hsa, ← hrb]
    exact Or.inl (show ((a : ℤ)) < ((b : ℤ)) by exact_mod_cast hab)

lemma zoom_generator_nodup (z : ℕ) : (zoom_generator z).Nodup := by
  refine (zoom_generator_pairwise z).imp ?_
  intro a b hab
  rintro rfl
  rcases hab with h | ⟨h1, h2⟩
  · exact lt_irrefl _ h
  · exact lt_irrefl _ h2

lemma tile_bounds_of_valid (z : ℕ) (x y : ℤ) (h : tile_is_valid z x y = true) :
    tile_bounds z x y = Except.ok
      (pixels_to_meters z ((x : ℝ) * 256) (((y : ℝ) + 1) * 256),
       pixels_to_meters z (((x : ℝ) + 1) * 256) ((y : ℝ) * 256)) := by
  unfold tile_bounds
  rw [if_pos h]

lemma tile_bounds_of_invalid (z : ℕ) (x y : ℤ) (h : tile_is_valid z x y = false) :
    tile_bounds z x y = Except.error "Invalid tile" := by
  unfold tile_bounds
  rw [if_neg]
  simp [h]

lemma bounds_from_tile_of_valid (z : ℕ) (x y : ℤ)
    (h : tile_is_valid z x y = true) :
    bounds_from_tile z x y = Except.ok (geoBounds z x y) := by
  unfold bounds_from_tile geoBounds
  rw [tile_bounds_of_valid z x y h]

lemma seqFilter_eq_filter (i : Intersect) (b : List ℚ) (ts : List Tile)
    (h : ∀ t ∈ ts, tile_is_valid t.1 t.2.1 t.2.2 = true) :
    seqFilter i b ts = Except.ok (ts.filter (tileTest i b)) := by
  induction ts with
  | nil => rfl
  | cons t ts ih =>
    have ht := h t (List.mem_cons_self t ts)
    have ih2 := ih (fun s hs => h s (List.mem_cons_of_mem t hs))
    rw [seqFilter, bounds_from_tile_of_valid t.1 t.2.1 t.2.2 ht, ih2,
      List.filter_cons]
    cases hc : tile_bounds_within_overall_bounds i (geoBounds t.1 t.2.1 t.2.2) b <;>
      simp [hc, tileTest]

lemma mapExcept_validate_tile (i : Intersect) (b : List ℚ) (ts : List Tile)
    (h : ∀ t ∈ ts, tile_is_valid t.1 t.2.1 t.2.2 = true) :
    mapExcept (VectorTileGenerator.validate_tile i b) ts =
      Except.ok (ts.map fun t => if tileTest i b t then some t else none) := by
  induction ts with
  | nil => rfl
  | cons t ts ih =>
    have ht := h t (List.mem_cons_self t ts)
    have ih2 := ih (fun s hs => h s (List.mem_cons_of_mem t hs))
    rw [mapExcept, VectorTileGenerator.validate_tile,
      bounds_from_tile_of_valid t.1 t.2.1 t.2.2 ht]
    cases hc : tile_bounds_within_overall_bounds i (geoBounds t.1 t.2.1 t.2.2) b <;>
      simp [hc, ih2, tileTest, List.map_cons]

lemma filterMap_id_map_if (p : Tile → Bool) (ts : List Tile) :
    (ts.map fun t => if p t then some t else none).filterMap id =
      ts.filter p := by
  induction ts with
  | nil => rfl
  | cons t ts ih =>
    rw [List.map_cons, List.filterMap_cons, List.filter_cons]
    cases hc : p t <;> simp [hc, ih]

lemma buildLevels_ok (f : ℕ → Except String (List Tile)) (g : ℕ → List Tile)
    (zs : List ℕ) (h : ∀ z ∈ zs, f z = Except.ok (g z)) :
    buildLevels f zs = Except.ok (zs.map fun z => (z, g z)) := by
  induction zs with
  | nil => rfl
  | cons z zs ih =>
    rw [buildLevels, h z (List.mem_cons_self z zs),
      ih (fun s hs => h s (List.mem_cons_of_mem z hs)), List.map_cons]

lemma buildLevels_congr (f g : ℕ → Except String (List Tile)) (zs : List ℕ)
    (h : ∀ z ∈ zs, f z = g z) : buildLevels f zs = buildLevels g zs := by
  induction zs with
  | nil => rfl
  | cons z zs ih =>
    rw [buildLevels, buildLevels, h z (List.mem_cons_self z zs),
      ih (fun s hs => h s (List.mem_cons_of_mem z hs))]

lemma buildLevels_mem (f : ℕ → Except String (List Tile)) (zs : List ℕ)
    (L : List (ℕ × List Tile)) (h : buildLevels f zs = Except.ok L) :
    ∀ p ∈ L, f p.1 = Except.ok p.2 := by
  induction zs generalizing L with
  | nil =>
    rw [buildLevels] at h
    obtain rfl : ([] : List (ℕ × List Tile)) = L := by
      simpa using h
    intro p hp
    simp at hp
  | cons z zs ih =>
    rw [buildLevels] at h
    cases hz : f z with
    | error e => rw [hz] at h; simp at h
    | ok v =>
      rw [hz] at h
      cases hrest : buildLevels f zs with
      | error e => rw [hrest] at h; simp at h
      | ok rest =>
        rw [hrest] at h
        obtain rfl : (z, v) :: rest = L := by simpa using h
        intro p hp
        rcases List.mem_cons.mp hp with rfl | hp2
        · exact hz
        · exact ih rest hrest p hp2

lemma okB_ok {ε α : Type} (a : α) : okB (Except.ok a : Except ε α) = true := rfl

lemma okB_error {ε α : Type} (e : ε) :
    okB (Except.error e : Except ε α) = false := rfl

lemma init_ok_iff (m M : ℤ) (b : List ℚ) :
    okB (init m M b) = true ↔ validParams m M b := by
  constructor
  · intro h
    unfold init at h
    by_cases h1 : m > 20
    · rw [if_pos h1, okB_error] at h; cases h
    rw [if_neg h1] at h
    by_cases h2 : m < 1
    · rw [if_pos h2, okB_error] at h; cases h
    rw [if_neg h2] at h
    by_cases h3 : M < 1
    · rw [if_pos h3, okB_error] at h; cases h
    rw [if_neg h3] at h
    by_cases h4 : M > 20
    · rw [if_pos h4, okB_error] at h; cases h
    rw [if_neg h4] at h
    by_cases h5 : m > M
    · rw [if_pos h5, okB_error] at h; cases h
    rw [if_neg h5] at h
    by_cases h6 : M < m
    · rw [if_pos h6, okB_error] at h; cases h
    rw [if_neg h6] at h
    by_cases h7 : b.length ≠ 4
    · rw [if_pos h7, okB_error] at h; cases h
    rw [if_neg h7] at h
    by_cases h8 : b.getD 0 0 < -180
    · rw [if_pos h8, okB_error] at h; cases h
    rw [if_neg h8] at h
    by_cases h9 : b.getD 1 0 < -90
    · rw [if_pos h9, okB_error] at h; cases h
    rw [if_neg h9] at h
    by_cases h10 : b.getD 2 0 > 180
    · rw [if_pos h10, okB_error] at h; cases h
    rw [if_neg h10] at h
    by_cases h11 : b.getD 3 0 > 90
    · rw [if_pos h11, okB_error] at h; cases h
    rw [if_neg h11] at h
    by_cases h12 : b.getD 0 0 > b.getD 2 0
    · rw [if_pos h12, okB_error] at h; cases h
    rw [if_neg h12] at h
    by_cases h13 : b.getD 1 0 > b.getD 3 0
    · rw [if_pos h13, okB_error] at h; cases h
    exact ⟨by omega, by omega, by omega, by omega, by omega, by omega,
      not_lt.mp h8, not_lt.mp h9, not_lt.mp h10, not_lt.mp h11,
      not_lt.mp h12, not_lt.mp h13⟩
  · rintro ⟨v1, v2, v3, v4, v5, v6, v7, v8, v9, v10, v11, v12⟩
    unfold init
    rw [if_neg (by omega), if_neg (by omega), if_neg (by omega),
      if_neg (by omega), if_neg (by omega), if_neg (by omega),
      if_neg (by omega), if_neg (not_lt.mpr v7), if_neg (not_lt.mpr v8),
      if_neg (not_lt.mpr v9), if_neg (not_lt.mpr v10),
      if_neg (not_lt.mpr v11), if_neg (not_lt.mpr v12)]
    rfl

lemma zoomList_mem (m M : ℤ) (z : ℕ) (hm : 0 ≤ m) :
    z ∈ zoomList m M ↔ m ≤ (z : ℤ) ∧ (z : ℤ) ≤ M := by
  unfold zoomList
  rw [List.mem_range']
  constructor
  · rintro ⟨i, hi, rfl⟩
    omega
  · rintro ⟨h1, h2⟩
    exact ⟨z - m.toNat, by omega, by omega⟩

lemma zoomList_ne_nil (m M : ℤ) (h1 : 0 ≤ m) (h2 : m ≤ M) :
    zoomList m M ≠ [] := by
  unfold zoomList
  have hl : (List.range' m.toNat (M + 1 - m).toNat).length =
      (M + 1 - m).toNat := List.length_range' _ _ _
  intro he
  rw [he] at hl
  simp at hl
  omega

lemma zoomList_pos (m M : ℤ) (z : ℕ) (hm : 1 ≤ m) (hz : z ∈ zoomList m M) :
    1 ≤ z := by
  have := (zoomList_mem m M z (by omega)).mp hz
  omega

/-- The tiles `generate` stores for a zoom level: all candidates on the
world-extent fast path, the containment-filtered candidates otherwise. -/
noncomputable def levelTiles (i : Intersect) (b : List ℚ) (z : ℕ) :
    List Tile :=
  if b ≠ worldBounds then (zoom_generator z).filter (tileTest i b)
  else zoom_generator z

lemma seq_level_eq (i : Intersect) (b : List ℚ) (z : ℕ) :
    (if b ≠ worldBounds then seqFilter i b (zoom_generator z)
     else Except.ok (zoom_generator z)) = Except.ok (levelTiles i b z) := by
  unfold levelTiles
  by_cases hb : b = worldBounds
  · rw [if_neg (by simpa using hb), if_neg (by simpa using hb)]
  · rw [if_pos hb, if_pos hb, seqFilter_eq_filter i b _ (zoom_generator_valid z)]

lemma par_level_eq (i : Intersect) (b : List ℚ) (z : ℕ) :
    (if b ≠ worldBounds then
       match mapExcept (VectorTileGenerator.validate_tile i b) (zoom_generator z) with
       | Except.error e => Except.error e
       | Except.ok rs => Except.ok (rs.filterMap id)
     else Except.ok (zoom_generator z)) = Except.ok (levelTiles i b z) := by
  unfold levelTiles
  by_cases hb : b = worldBounds
  · rw [if_neg (by simpa using hb), if_neg (by simpa using hb)]
  · rw [if_pos hb, if_pos hb,
      mapExcept_validate_tile i b _ (zoom_generator_valid z)]
    dsimp only
    rw [filterMap_id_map_if]

lemma generate_seq_eq (i : Intersect) (m M : ℤ) (b : List ℚ) :
    TileGenerator.generate i m M b =
      Except.ok ((zoomList m M).map fun z => (z, levelTiles i b z)) := by
  unfold TileGenerator.generate
  exact buildLevels_ok _ _ _ (fun z _ => seq_level_eq i b z)

lemma generate_par_eq (i : Intersect) (m M : ℤ) (b : List ℚ) :
    VectorTileGenerator.generate i m M b =
      Except.ok ((zoomList m M).map fun z => (z, levelTiles i b z)) := by
  unfold VectorTileGenerator.generate
  exact buildLevels_ok _ _ _ (fun z _ => par_level_eq i b z)

lemma res_pos (z : ℕ) : (0 : ℝ) < (2 * Real.pi * 6378137 / 256) / 2 ^ z := by
  positivity

lemma p2m_fst (z : ℕ) (a b : ℝ) :
    (pixels_to_meters z a b).1 =
      a * ((2 * Real.pi * 6378137 / 256) / 2 ^ z) - Real.pi * 6378137 := by
  unfold pixels_to_meters
  dsimp only
  ring

lemma p2m_snd (z : ℕ) (a b : ℝ) :
    (pixels_to_meters z a b).2 =
      -(b * ((2 * Real.pi * 6378137 / 256) / 2 ^ z) - Real.pi * 6378137) := by
  unfold pixels_to_meters
  dsimp only
  ring

lemma m2ll_lng_lt (a b : ℝ × ℝ) (h : a.1 < b.1) :
    (meters_to_lat_lng a).1 < (meters_to_lat_lng b).1 := by
  unfold meters_to_lat_lng
  dsimp only
  have hC : (0 : ℝ) < 2 * Real.pi * 6378137 / 2 := by positivity
  have h1 := (div_lt_div_iff_of_pos_right hC).mpr h
  exact mul_lt_mul_of_pos_right h1 (by norm_num)

lemma m2ll_lat_lt (a b : ℝ × ℝ) (h : a.2 < b.2) :
    (meters_to_lat_lng a).2 < (meters_to_lat_lng b).2 := by
  unfold meters_to_lat_lng
  dsimp only
  have hC : (0 : ℝ) < 2 * Real.pi * 6378137 / 2 := by positivity
  have h1 := (div_lt_div_iff_of_pos_right hC).mpr h
  have h2 := mul_lt_mul_of_pos_right h1 (show (0 : ℝ) < 180 by norm_num)
  have h3 := mul_lt_mul_of_pos_right h2 Real.pi_pos
  have h4 := (div_lt_div_iff_of_pos_right (show (0 : ℝ) < 180 by norm_num)).mpr h3
  have h5 := Real.arctan_strictMono (Real.exp_lt_exp.mpr h4)
  have h6 : (0 : ℝ) < 180 / Real.pi := by positivity
  have h7 : 2 * Real.arctan (Real.exp
        (a.2 / (2 * Real.pi * 6378137 / 2) * 180 * Real.pi / 180)) - Real.pi / 2 <
      2 * Real.arctan (Real.exp
        (b.2 / (2 * Real.pi * 6378137 / 2) * 180 * Real.pi / 180)) - Real.pi / 2 := by
    linarith
  exact mul_lt_mul_of_pos_left h7 h6

/-- C7: `pixels_to_meters(z, px, py)` computes exactly
`(px·r − π·R, −(py·r − π·R))` with `r = (2π·R/256)/2^z` and `R = 6378137`;
the y component's sign is flipped relative to the pixel-grid y. -/
theorem pixels_to_meters_formula (z : ℕ) (px py : ℝ) :
    pixels_to_meters z px py =
      (px * ((2 * Real.pi * 6378137 / 256) / 2 ^ z) - Real.pi * 6378137,
       -(py * ((2 * Real.pi * 6378137 / 256) / 2 ^ z) - Real.pi * 6378137)) := by
  unfold pixels_to_meters
  dsimp only
  rw [Prod.mk.injEq]
  constructor
  · ring
  · ring

/-- C8: for every valid tile index, the geographic bounding box computed
by `bounds_from_tile` is strictly ordered: min longitude below max
longitude and min latitude below max latitude. -/
theorem bounds_from_tile_ordered (z : ℕ) (x y : ℤ)
    (hx0 : 0 ≤ x) (hx : x < 2 ^ z) (hy0 : 0 ≤ y) (hy : y < 2 ^ z) :
    ∃ bb : ℝ × ℝ × ℝ × ℝ, bounds_from_tile z x y = Except.ok bb ∧
      bb.1 < bb.2.2.1 ∧ bb.2.1 < bb.2.2.2 := by
  have hv : tile_is_valid z x y = true :=
    (tile_is_valid_iff z x y).mpr ⟨hx0, hx, hy0, hy⟩
  refine ⟨geoBounds z x y, bounds_from_tile_of_valid z x y hv, ?_, ?_⟩
  · unfold geoBounds
    dsimp only
    apply m2ll_lng_lt
    rw [p2m_fst, p2m_fst]
    have hres := res_pos z
    have h1 : ((x : ℝ)) * 256 < ((x : ℝ) + 1) * 256 := by linarith
    have := mul_lt_mul_of_pos_right h1 hres
    linarith
  · unfold geoBounds
    dsimp only
    apply m2ll_lat_lt
    rw [p2m_snd, p2m_snd]
    have hres := res_pos z
    have h1 : ((y : ℝ)) * 256 < ((y : ℝ) + 1) * 256 := by linarith
    have := mul_lt_mul_of_pos_right h1 hres
    linarith

/-- Instance of C8 at the concrete valid tile `(z, x, y) = (1, 0, 0)`. -/
theorem bounds_from_tile_ordered_witness :
    ∃ bb : ℝ × ℝ × ℝ × ℝ, bounds_from_tile 1 0 0 = Except.ok bb ∧
      bb.1 < bb.2.2.1 ∧ bb.2.1 < bb.2.2.2 :=
  bounds_from_tile_ordered 1 0 0 (by decide) (by decide) (by decide) (by decide)

/-- C3: the zoom-level enumerator yields exactly `4^z` distinct tiles,
each valid, characterized as the full `[0,2^z) × [0,2^z)` grid at zoom
`z`, listed in strict x-major order (x ascending, then y ascending). -/
theorem zoom_generator_spec (z : ℕ) :
    (zoom_generator z).length = 4 ^ z ∧
    (zoom_generator z).Nodup ∧
    (∀ t ∈ zoom_generator z, tile_is_valid t.1 t.2.1 t.2.2 = true) ∧
    (∀ t : Tile, t ∈ zoom_generator z ↔
      t.1 = z ∧ 0 ≤ t.2.1 ∧ t.2.1 < 2 ^ z ∧ 0 ≤ t.2.2 ∧ t.2.2 < 2 ^ z) ∧
    List.Pairwise tileLex (zoom_generator z) :=
  ⟨zoom_generator_length z, zoom_generator_nodup z, zoom_generator_valid z,
    zoom_generator_mem z, zoom_generator_pairwise z⟩

/-- C4: construction fails exactly when one of the validation rules is
violated (`okB`-iff), and the checks run in the spec's stated rule order
with the first violation reported (`init` agrees with the spec-ordered
checker `initSpec` on every input). -/
theorem init_validation (m M : ℤ) (b : List ℚ) :
    init m M b = initSpec m M b ∧
    (okB (init m M b) = true ↔ validParams m M b) := by
  refine ⟨?_, init_ok_iff m M b⟩
  unfold init initSpec
  by_cases h1 : m > 20
  · simp only [if_pos h1]
  simp only [if_neg h1]
  by_cases h2 : m < 1
  · simp only [if_pos h2]
  simp only [if_neg h2]
  by_cases h3 : M < 1
  · simp only [if_pos h3]
  simp only [if_neg h3]
  by_cases h4 : M > 20
  · simp only [if_pos h4]
  simp only [if_neg h4]
  by_cases h5 : m > M
  · simp only [if_pos h5]
  simp only [if_neg h5, if_neg (show ¬(M < m) by omega)]

/-- C5: `tile_bounds` raises `Invalid tile` exactly when the index is out
of range, and otherwise returns the projected-meter corner pair built
from pixels `(x·256, (y+1)·256)` and `((x+1)·256, y·256)`. -/
theorem tile_bounds_spec (z : ℕ) (x y : ℤ) :
    (tile_bounds z x y = Except.error "Invalid tile" ↔
      ¬(0 ≤ x ∧ x < 2 ^ z ∧ 0 ≤ y ∧ y < 2 ^ z)) ∧
    (tile_is_valid z x y = true →
      tile_bounds z x y = Except.ok
        (pixels_to_meters z ((x : ℝ) * 256) (((y : ℝ) + 1) * 256),
         pixels_to_meters z (((x : ℝ) + 1) * 256) ((y : ℝ) * 256))) := by
  refine ⟨⟨?_, ?_⟩, tile_bounds_of_valid z x y⟩
  · intro he hv
    rw [tile_bounds_of_valid z x y ((tile_is_valid_iff z x y).mpr hv)] at he
    exact Except.noConfusion he
  · intro hv
    apply tile_bounds_of_invalid
    cases hb : tile_is_valid z x y
    · rfl
    · exact absurd ((tile_is_valid_iff z x y).mp hb) hv

/-- Instance of C5's valid branch at the concrete tile `(1, 0, 0)`. -/
theorem tile_bounds_spec_witness :
    tile_bounds 1 0 0 = Except.ok
      (pixels_to_meters 1 (((0 : ℤ) : ℝ) * 256) ((((0 : ℤ) : ℝ) + 1) * 256),
       pixels_to_meters 1 ((((0 : ℤ) : ℝ) + 1) * 256) (((0 : ℤ) : ℝ) * 256)) :=
  (tile_bounds_spec 1 0 0).2 (by decide)

/-- C1: with world-extent bounds, `generate` takes the fast path at every
zoom level of the configured range: the result maps each `z` in
`minZoom..maxZoom` (exactly the `zoomList`) to the raw enumerator output,
for any intersection primitive (no containment test is consulted). -/
theorem generate_world_fast_path (i : Intersect) (m M : ℤ)
    (hok : okB (init m M worldBounds) = true) :
    TileGenerator.generate i m M worldBounds =
      Except.ok ((zoomList m M).map fun z => (z, zoom_generator z)) ∧
    ∀ z : ℕ, z ∈ zoomList m M ↔ (m ≤ (z : ℤ) ∧ (z : ℤ) ≤ M) := by
  obtain ⟨hv1, hres⟩ := (init_ok_iff m M worldBounds).mp hok
  constructor
  · rw [generate_seq_eq]
    refine congrArg _ (List.map_congr_left fun z hz => ?_)
    unfold levelTiles
    rw [if_neg (by simp)]
  · intro z
    exact zoomList_mem m M z (by omega)

/-- Instance of C1 at `minZoom = 1`, `maxZoom = 2`. -/
theorem generate_world_fast_path_witness :
    TileGenerator.generate (fun a b => true) 1 2 worldBounds =
      Except.ok ((zoomList 1 2).map fun z => (z, zoom_generator z)) :=
  (generate_world_fast_path (fun a b => true) 1 2 (by decide)).1

/-- C2: the sequential and the parallel engine agree exactly (same zoom
keys, same tiles, same order) for every configuration and intersection
primitive, and the per-zoom survivor list is always an order-preserving
subsequence of the canonical x-major enumeration. -/
theorem strategy_equivalence (i : Intersect) (m M : ℤ) (b : List ℚ)
    (hok : okB (init m M b) = true) :
    TileGenerator.generate i m M b = VectorTileGenerator.generate i m M b ∧
    ∀ L, TileGenerator.generate i m M b = Except.ok L →
      ∀ p ∈ L, p.2.Sublist (zoom_generator p.1) := by
  constructor
  · rw [generate_seq_eq, generate_par_eq]
  · intro L hL p hp
    rw [generate_seq_eq] at hL
    obtain rfl : ((zoomList m M).map fun z => (z, levelTiles i b z)) = L := by
      simpa using hL
    obtain ⟨z, hz, rfl⟩ := List.mem_map.mp hp
    dsimp only
    unfold levelTiles
    by_cases hb : b = worldBounds
    · rw [if_neg (by simpa using hb)]
    · rw [if_pos hb]
      exact List.filter_sublist _

/-- Instance of C2 at a concrete narrowed configuration. -/
theorem strategy_equivalence_witness :
    TileGenerator.generate (fun a b => true) 1 1 [0, 0, 0, 1] =
      VectorTileGenerator.generate (fun a b => true) 1 1 [0, 0, 0, 1] :=
  (strategy_equivalence (fun a b => true) 1 1 [0, 0, 0, 1] (by decide)).1

/-- C6: the enumerator only emits valid tile indices, so `generate` never
reaches the `Invalid tile` error branch: on every validly constructed
configuration both engines return normally. -/
theorem generate_no_invalid_tile (i : Intersect) (m M : ℤ) (b : List ℚ)
    (hok : okB (init m M b) = true) :
    (∀ z : ℕ, ∀ t ∈ zoom_generator z, tile_is_valid t.1 t.2.1 t.2.2 = true) ∧
    okB (TileGenerator.generate i m M b) = true ∧
    okB (VectorTileGenerator.generate i m M b) = true := by
  refine ⟨fun z => zoom_generator_valid z, ?_, ?_⟩
  · rw [generate_seq_eq]
    rfl
  · rw [generate_par_eq]
    rfl

/-- Instance of C6 at a concrete configuration. -/
theorem generate_no_invalid_tile_witness :
    okB (TileGenerator.generate (fun a b => true) 1 1 [0, 0, 0, 1]) = true :=
  (generate_no_invalid_tile (fun a b => true) 1 1 [0, 0, 0, 1] (by decide)).2.1

/-- C10: in the parallel engine `validate_tile` returns the candidate
tile unchanged or the empty result, according to the containment test,
and the positional map plus compaction produce exactly the
order-preserving filter of the enumeration by that test. -/
theorem validate_tile_compaction (i : Intersect) (b : List ℚ) (z : ℕ) (x y : ℤ)
    (hv : tile_is_valid z x y = true) :
    VectorTileGenerator.validate_tile i b (z, x, y) =
      Except.ok (if tileTest i b (z, x, y) then some ((z, x, y) : Tile)
        else none) ∧
    ∃ rs, mapExcept (VectorTileGenerator.validate_tile i b)
        (zoom_generator z) = Except.ok rs ∧
      rs.filterMap id = (zoom_generator z).filter (tileTest i b) := by
  constructor
  · unfold VectorTileGenerator.validate_tile
    dsimp only
    rw [bounds_from_tile_of_valid z x y hv]
    unfold tileTest
    dsimp only
    cases hc : tile_bounds_within_overall_bounds i (geoBounds z x y) b <;>
      simp [hc]
  · exact ⟨_, mapExcept_validate_tile i b _ (zoom_generator_valid z),
      filterMap_id_map_if _ _⟩

/-- Instance of C10 at the concrete tile `(1, 0, 0)`. -/
theorem validate_tile_compaction_witness :
    VectorTileGenerator.validate_tile (fun a b => true) [0, 0, 0, 1] (1, 0, 0) =
      Except.ok (if tileTest (fun a b => true) [0, 0, 0, 1] ((1, 0, 0) : Tile)
        then some ((1, 0, 0) : Tile) else none) :=
  (validate_tile_compaction (fun a b => true) [0, 0, 0, 1] 1 0 0 (by decide)).1

lemma m2ll_fst (p : ℝ × ℝ) :
    (meters_to_lat_lng p).1 = p.1 / (2 * Real.pi * 6378137 / 2) * 180 := rfl

lemma m2ll_lat_of_zero (p : ℝ × ℝ) (h : p.2 = 0) :
    (meters_to_lat_lng p).2 = 0 := by
  unfold meters_to_lat_lng
  dsimp only
  rw [h]
  have h0 : (0 : ℝ) / (2 * Real.pi * 6378137 / 2) * 180 * Real.pi / 180 = 0 := by
    ring
  rw [h0, Real.exp_zero, Real.arctan_one]
  ring

lemma m2ll_lat_neg (p : ℝ × ℝ) (h : p.2 < 0) :
    (meters_to_lat_lng p).2 < 0 := by
  have h2 := m2ll_lat_lt p (p.1, 0) (by simpa using h)
  rw [m2ll_lat_of_zero (p.1, 0) rfl] at h2
  exact h2

lemma geoBounds_c1 (z : ℕ) (x y : ℤ) :
    (geoBounds z x y).1 =
      (meters_to_lat_lng
        (pixels_to_meters z ((x : ℝ) * 256) (((y : ℝ) + 1) * 256))).1 := rfl

lemma geoBounds_c2 (z : ℕ) (x y : ℤ) :
    (geoBounds z x y).2.1 =
      (meters_to_lat_lng
        (pixels_to_meters z ((x : ℝ) * 256) (((y : ℝ) + 1) * 256))).2 := rfl

lemma geoBounds_c3 (z : ℕ) (x y : ℤ) :
    (geoBounds z x y).2.2.1 =
      (meters_to_lat_lng
        (pixels_to_meters z (((x : ℝ) + 1) * 256) ((y : ℝ) * 256))).1 := rfl

lemma geoBounds_c4 (z : ℕ) (x y : ℤ) :
    (geoBounds z x y).2.2.2 =
      (meters_to_lat_lng
        (pixels_to_meters z (((x : ℝ) + 1) * 256) ((y : ℝ) * 256))).2 := rfl

lemma half_grid_meters (k : ℕ) :
    (2 : ℝ) ^ k * 256 * ((2 * Real.pi * 6378137 / 256) / 2 ^ (k + 1)) =
      Real.pi * 6378137 := by
  rw [pow_succ]
  have h2 : ((2 : ℝ)) ^ k ≠ 0 := by positivity
  field_simp
  ring

/-- C9: with the degenerate single-point box `[0, 0, 0, 0]` and a
boundary-inclusive intersection primitive, `generate` succeeds, covers
every zoom level of the configured range, and keeps at least one tile
(the tile whose polygon touches the origin) at every zoom level. -/
theorem degenerate_origin_box (i : Intersect) (m M : ℤ)
    (hok : okB (init m M [0, 0, 0, 0]) = true)
    (hincl : ∀ tb ob, rectOverlap tb ob →
      tile_bounds_within_overall_bounds i tb ob = true) :
    ∃ L, TileGenerator.generate i m M [0, 0, 0, 0] = Except.ok L ∧
      L.map Prod.fst = zoomList m M ∧ L ≠ [] ∧ ∀ p ∈ L, p.2 ≠ [] := by
  obtain ⟨hv1, hv2, hv3, hv4, hv5, hrest⟩ :=
    (init_ok_iff m M [0, 0, 0, 0]).mp hok
  refine ⟨_, generate_seq_eq i m M [0, 0, 0, 0], ?_, ?_, ?_⟩
  · rw [List.map_map]
    rw [show (Prod.fst ∘ fun z : ℕ =>
        ((z, levelTiles i [0, 0, 0, 0] z) : ℕ × List Tile)) = id from
      funext fun z => rfl, List.map_id]
  · intro he
    rw [List.map_eq_nil_iff] at he
    exact zoomList_ne_nil m M (by omega) hv5 he
  · intro p hp
    obtain ⟨z, hz, rfl⟩ := List.mem_map.mp hp
    have hz1 : 1 ≤ z := zoomList_pos m M z hv1 hz
    obtain ⟨k, rfl⟩ : ∃ k, z = k + 1 := ⟨z - 1, by omega⟩
    dsimp only
    unfold levelTiles
    rw [if_pos (show ([0, 0, 0, 0] : List ℚ) ≠ worldBounds by decide)]
    have hcast : ((((2 ^ k : ℕ) : ℤ)) : ℝ) = (2 : ℝ) ^ k := by
      push_cast
      ring
    have hkey := half_grid_meters k
    have hmem : ((k + 1, ((2 ^ k : ℕ) : ℤ), ((2 ^ k : ℕ) : ℤ)) : Tile) ∈
        zoom_generator (k + 1) := by
      rw [zoom_generator_mem]
      have hlt : (((2 ^ k : ℕ) : ℤ)) < (2 : ℤ) ^ (k + 1) := by
        rw [← two_pow_cast]
        exact_mod_cast Nat.pow_lt_pow_succ (by norm_num)
      exact ⟨rfl, by positivity, hlt, by positivity, hlt⟩
    have hA : ((((2 ^ k : ℕ) : ℤ)) : ℝ) * 256 *
        ((2 * Real.pi * 6378137 / 256) / 2 ^ (k + 1)) - Real.pi * 6378137 = 0 := by
      rw [hcast]
      linear_combination hkey
    have hB : ((((2 ^ k : ℕ) : ℤ) : ℝ) + 1) * 256 *
        ((2 * Real.pi * 6378137 / 256) / 2 ^ (k + 1)) - Real.pi * 6378137 =
        256 * ((2 * Real.pi * 6378137 / 256) / 2 ^ (k + 1)) := by
      rw [hcast]
      linear_combination hkey
    have htest : tileTest i [0, 0, 0, 0]
        ((k + 1, ((2 ^ k : ℕ) : ℤ), ((2 ^ k : ℕ) : ℤ)) : Tile) = true := by
      unfold tileTest
      dsimp only
      apply hincl
      unfold rectOverlap
      have hg0 : ((([0, 0, 0, 0] : List ℚ).getD 0 0 : ℚ) : ℝ) = 0 := by norm_num
      have hg1 : ((([0, 0, 0, 0] : List ℚ).getD 1 0 : ℚ) : ℝ) = 0 := by norm_num
      have hg2 : ((([0, 0, 0, 0] : List ℚ).getD 2 0 : ℚ) : ℝ) = 0 := by norm_num
      have hg3 : ((([0, 0, 0, 0] : List ℚ).getD 3 0 : ℚ) : ℝ) = 0 := by norm_num
      rw [hg0, hg1, hg2, hg3]
      refine ⟨?_, ?_, ?_, ?_⟩
      · rw [geoBounds_c1, m2ll_fst, p2m_fst, hA]
        norm_num
      · rw [geoBounds_c3, m2ll_fst, p2m_fst, hB]
        positivity
      · rw [geoBounds_c2]
        refine le_of_lt (m2ll_lat_neg _ ?_)
        rw [p2m_snd]
        have hpos : (0 : ℝ) <
            256 * ((2 * Real.pi * 6378137 / 256) / 2 ^ (k + 1)) := by positivity
        linarith [hB]
      · rw [geoBounds_c4]
        rw [m2ll_lat_of_zero _ (by rw [p2m_snd, hA, neg_zero])]
    exact List.ne_nil_of_mem (List.mem_filter.mpr ⟨hmem, htest⟩)

/-- Instance of C9 at `minZoom = maxZoom = 1` with an always-true
intersection primitive (trivially boundary-inclusive). -/
theorem degenerate_origin_box_witness :
    ∃ L, TileGenerator.generate (fun a b => true) 1 1 [0, 0, 0, 0] =
        Except.ok L ∧
      L.map Prod.fst = zoomList 1 1 ∧ L ≠ [] ∧ ∀ p ∈ L, p.2 ≠ [] :=
  degenerate_origin_box (fun a b => true) 1 1 (by decide)
    (fun tb ob h => rfl)
